import Mathlib

/-!
Verification development for the xfund deal-diligence pipeline.

Shallow embedding of the orchestration core: idempotency-key claims,
workflow-run bookkeeping, the stage state machine, the task-state
change detector, the research fan-out, calendar event parsing, the
push-channel replace operation and the calendar webhook router.
Database tables are modelled as Lean lists of rows; each repository
function is translated statement by statement from the TypeScript
source.  Wall-clock timestamps (`now()`, `updated_at`) are modelled as
explicit `Nat` parameters or omitted where noted.
-/

namespace XFund

/-! ## Idempotency keys (db/repos/idempotency.repo.ts)

The `idempotency_keys` table has a single text primary-key column; we
model it as the list of claimed keys.  `claimKey` is
`INSERT .. ON CONFLICT (key) DO NOTHING RETURNING key`: it returns
`true` exactly when the key was freshly inserted. -/

def stageActionKey (taskGid sectionGid modifiedAt : String) : String :=
  "stage:" ++ taskGid ++ ":" ++ sectionGid ++ ":" ++ modifiedAt

def gcalPingKey (channelId messageNumber : String) : String :=
  "gcal_ping:" ++ channelId ++ ":" ++ messageNumber

def claimKey (key : String) (keys : List String) : Bool × List String :=
  if key ∈ keys then (false, keys) else (true, key :: keys)

/-! ## Workflow runs (db/repos/workflow-runs.repo.ts)

Rows of `workflow_runs`.  `id` is generated by the database; we model
it as a `Nat` supplied by the caller (the stage handler threads a
fresh-id counter).  `started_at` and `meta` are not needed by any
claim and are omitted; `finished_at` keeps its null/non-null shape
with `Option Nat` standing for a timestamp. -/

inductive RunStatus
  | running
  | succeeded
  | failed
  | canceled
deriving DecidableEq, Repr

/-- TypeScript restricts `completeRun`'s status argument to
`'succeeded' | 'failed' | 'canceled'`; this type mirrors that. -/
inductive TerminalStatus
  | succeeded
  | failed
  | canceled
deriving DecidableEq, Repr

def TerminalStatus.toRunStatus : TerminalStatus → RunStatus
  | .succeeded => .succeeded
  | .failed => .failed
  | .canceled => .canceled

structure WorkflowRun where
  id : Nat
  deal_id : String
  stage_key : String
  status : RunStatus
  cancel_requested : Bool
  finished_at : Option Nat
deriving DecidableEq, Repr

/-- INSERT with schema defaults `status = 'running'`,
`cancel_requested = false`, `finished_at` null. -/
def createRun (db : List WorkflowRun) (runId : Nat) (dealId stageKey : String) :
    List WorkflowRun :=
  db ++ [{ id := runId, deal_id := dealId, stage_key := stageKey,
           status := .running, cancel_requested := false, finished_at := none }]

/-- UPDATE workflow_runs SET status, finished_at = now() WHERE id = runId.
There is no `AND status = 'running'` guard in the source SQL. -/
def completeRun (db : List WorkflowRun) (runId : Nat) (status : TerminalStatus)
    (now : Nat) : List WorkflowRun :=
  db.map fun r =>
    if r.id = runId then
      { r with status := status.toRunStatus, finished_at := some now }
    else r

/-- UPDATE workflow_runs SET cancel_requested = true
WHERE deal_id = dealId AND status = 'running'. -/
def requestCancellation (db : List WorkflowRun) (dealId : String) :
    List WorkflowRun :=
  db.map fun r =>
    if r.deal_id = dealId ∧ r.status = .running then
      { r with cancel_requested := true }
    else r

/-- SELECT cancel_requested FROM workflow_runs WHERE id = runId, with the
source's `row?.cancel_requested ?? false` fallback for a missing row. -/
def isCancelRequested (db : List WorkflowRun) (runId : Nat) : Bool :=
  match db.find? (fun r => r.id = runId) with
  | some r => r.cancel_requested
  | none => false

def statusOf (db : List WorkflowRun) (runId : Nat) : Option RunStatus :=
  (db.find? (fun r => r.id = runId)).map (·.status)

/-- Operations any part of the system performs on the `workflow_runs`
table; used to state reachability invariants. -/
inductive RunOp
  | create (runId : Nat) (dealId stageKey : String)
  | complete (runId : Nat) (status : TerminalStatus) (now : Nat)
  | requestCancel (dealId : String)

def applyRunOp (db : List WorkflowRun) : RunOp → List WorkflowRun
  | .create runId dealId stageKey => createRun db runId dealId stageKey
  | .complete runId status now => completeRun db runId status now
  | .requestCancel dealId => requestCancellation db dealId

def applyRunOps (ops : List RunOp) (db : List WorkflowRun) : List WorkflowRun :=
  ops.foldl applyRunOp db

def RunStatus.isTerminal : RunStatus → Bool
  | .running => false
  | _ => true

/-- One row satisfies the spec's iff: `finished_at` set exactly when the
status is terminal. -/
def finishedIffTerminal (r : WorkflowRun) : Bool :=
  r.finished_at.isSome == r.status.isTerminal

/-! ## Deals (db/repos/deals.repo.ts)

Rows of `deals`.  `tenant_id` is the single default tenant throughout
the service and is dropped; `notion` fields, `source` and timestamps
are not needed by any claim. -/

structure Deal where
  id : String
  gcal_calendar_id : String
  gcal_event_id : String
  company_name : Option String
  founder_name : Option String
  asana_task_gid : Option String
  current_stage : String
deriving DecidableEq, Repr

def getDealByAsanaTask (db : List Deal) (taskGid : String) : Option Deal :=
  db.find? fun d => d.asana_task_gid = some taskGid

def getDealById (db : List Deal) (dealId : String) : Option Deal :=
  db.find? fun d => d.id = dealId

def updateDealStage (db : List Deal) (dealId stage : String) : List Deal :=
  db.map fun d => if d.id = dealId then { d with current_stage := stage } else d

/-- INSERT .. ON CONFLICT (tenant, calendar, event) DO UPDATE with
COALESCE on company/founder (a null input keeps the stored value).
The fresh row's uuid is supplied by the caller as `newId`; the schema
defaults give `current_stage = 'FIRST_MEETING'` and a null
`asana_task_gid`. -/
def upsertDeal (db : List Deal) (newId calendarId eventId : String)
    (companyName founderName : Option String) : List Deal :=
  match db.find? (fun d => d.gcal_calendar_id = calendarId ∧ d.gcal_event_id = eventId) with
  | some _ =>
      db.map fun d =>
        if d.gcal_calendar_id = calendarId ∧ d.gcal_event_id = eventId then
          { d with company_name := companyName.orElse (fun _ => d.company_name),
                   founder_name := founderName.orElse (fun _ => d.founder_name) }
        else d
  | none =>
      db ++ [{ id := newId, gcal_calendar_id := calendarId, gcal_event_id := eventId,
               company_name := companyName, founder_name := founderName,
               asana_task_gid := none, current_stage := "FIRST_MEETING" }]

/-! ## Stage state machine (apps/worker/src/handlers/stage-action.ts)

State touched by `handleStageAction`: the idempotency-key table, the
deals table, the workflow-runs table and the task queue.  External
side effects (Notion status sync, Asana subtasks, task notes) are
best-effort calls whose failures the handler logs and swallows; they
do not feed back into this state and are omitted.  The queue is a
FIFO list; enqueue appends. -/

inductive Job
  | researchBatch (runId : Nat) (dealId companyName founderName : String)
  | memoGenerate (runId : Nat) (dealId companyName founderName : String)
deriving DecidableEq, Repr

structure StagePayload where
  taskGid : String
  stageKey : String
  sectionGid : String
  modifiedAt : String
  previousStage : Option String
deriving DecidableEq, Repr

structure StageSt where
  keys : List String
  deals : List Deal
  runs : List WorkflowRun
  queue : List Job
  nextRunId : Nat
deriving DecidableEq, Repr

/-- STAGE_ACTION handler.  Mirrors the source step by step: claim the
idempotency key (duplicate → return unchanged), resolve the deal by
task gid (absent → return, key stays claimed), update the deal stage,
request cancellation when leaving IN_DILIGENCE or entering
PASS/ARCHIVE, create a running WorkflowRun, dispatch per-stage work
(IN_DILIGENCE enqueues RESEARCH_BATCH, IC_REVIEW enqueues
MEMO_GENERATE, PASS/ARCHIVE re-issues cancellation), and close the
run as succeeded.  `now` stands for the wall clock at handler exit. -/
def handleStageAction (st : StageSt) (p : StagePayload) (now : Nat) : StageSt :=
  let idemKey := stageActionKey p.taskGid p.sectionGid p.modifiedAt
  match claimKey idemKey st.keys with
  | (false, _) => st
  | (true, keys2) =>
    match getDealByAsanaTask st.deals p.taskGid with
    | none => { st with keys := keys2 }
    | some deal =>
      let deals2 := updateDealStage st.deals deal.id p.stageKey
      let runs2 :=
        if p.previousStage = some "IN_DILIGENCE" ∨ p.stageKey = "PASS" ∨
            p.stageKey = "ARCHIVE" then
          requestCancellation st.runs deal.id
        else st.runs
      let runId := st.nextRunId
      let runs3 := createRun runs2 runId deal.id p.stageKey
      let company := deal.company_name.getD "Unknown Company"
      let founder := deal.founder_name.getD "Unknown Founder"
      let dispatched :=
        if p.stageKey = "IN_DILIGENCE" then
          (st.queue ++ [Job.researchBatch runId deal.id company founder], runs3)
        else if p.stageKey = "IC_REVIEW" then
          (st.queue ++ [Job.memoGenerate runId deal.id company founder], runs3)
        else if p.stageKey = "PASS" ∨ p.stageKey = "ARCHIVE" then
          (st.queue, requestCancellation runs3 deal.id)
        else (st.queue, runs3)
      let runs4 := completeRun dispatched.2 runId .succeeded now
      { keys := keys2, deals := deals2, runs := runs4,
        queue := dispatched.1, nextRunId := runId + 1 }

/-! ## Task-state change detector (db/repos/asana-task-state.repo.ts)

Rows of `asana_task_state`, keyed by `(task_gid, project_gid)` under
the single tenant.  `updated_at` (always rewritten to `now()`) is a
wall-clock column and is omitted; `last_processed_modified_at` is the
iso string from the payload. -/

structure TaskStateRow where
  task_gid : String
  project_gid : String
  last_seen_section_gid : Option String
  last_processed_modified_at : Option String
  last_triggered_stage : Option String
deriving DecidableEq, Repr

structure SectionChangeResult where
  changed : Bool
  previousSectionGid : Option String
  previousStage : Option String
deriving DecidableEq, Repr

/-- SELECT * FROM asana_task_state WHERE tenant AND task_gid AND
project_gid (the first statement of `upsertAndDetectChange`). -/
def getTaskState (db : List TaskStateRow) (taskGid projectGid : String) :
    Option TaskStateRow :=
  db.find? fun r => r.task_gid = taskGid ∧ r.project_gid = projectGid

/-- INSERT .. ON CONFLICT (tenant, task_gid, project_gid) DO UPDATE SET
last_seen_section_gid, last_processed_modified_at (the second
statement of `upsertAndDetectChange`).  A conflicting update touches
every row with the key (the unique constraint allows at most one). -/
def taskStateWrite (db : List TaskStateRow) (taskGid projectGid cur modifiedAt : String) :
    List TaskStateRow :=
  if (getTaskState db taskGid projectGid).isSome then
    db.map fun r =>
      if r.task_gid = taskGid ∧ r.project_gid = projectGid then
        { r with last_seen_section_gid := some cur,
                 last_processed_modified_at := some modifiedAt }
      else r
  else
    db ++ [{ task_gid := taskGid, project_gid := projectGid,
             last_seen_section_gid := some cur,
             last_processed_modified_at := some modifiedAt,
             last_triggered_stage := none }]

/-- Shared computation of the change result from the row the SELECT saw. -/
def detectChange (existing : Option TaskStateRow) (cur : String) : SectionChangeResult :=
  let previousSectionGid := existing.bind (·.last_seen_section_gid)
  let previousStage := existing.bind (·.last_triggered_stage)
  let changed := match previousSectionGid with
    | none => false
    | some p => if p = cur then false else true
  { changed := changed, previousSectionGid := previousSectionGid,
    previousStage := previousStage }

/-- Sequential run of `upsertAndDetectChange`: the SELECT round-trip,
then the separate INSERT .. ON CONFLICT round-trip. -/
def upsertAndDetectChange (db : List TaskStateRow) (taskGid projectGid cur modifiedAt : String) :
    SectionChangeResult × List TaskStateRow :=
  let existing := getTaskState db taskGid projectGid
  (detectChange existing cur, taskStateWrite db taskGid projectGid cur modifiedAt)

def setTriggeredStage (db : List TaskStateRow) (taskGid projectGid stageKey : String) :
    List TaskStateRow :=
  db.map fun r =>
    if r.task_gid = taskGid ∧ r.project_gid = projectGid then
      { r with last_triggered_stage := some stageKey }
    else r

/-! ### Interleaving model for the two-statement upsert

Each invocation of `upsertAndDetectChange` is two database
round-trips: its SELECT and its INSERT.  Two concurrent invocations A
and B therefore execute four atomic steps in some order with A's read
before A's write and B's read before B's write.  The machine records
what each invocation's SELECT returned. -/

structure UpsertInput where
  taskGid : String
  projectGid : String
  currentSectionGid : String
  modifiedAt : String
deriving DecidableEq, Repr

structure RaceSt where
  db : List TaskStateRow
  readA : Option (Option TaskStateRow)
  readB : Option (Option TaskStateRow)
  wroteA : Bool
  wroteB : Bool
deriving DecidableEq, Repr

/-- Advance one invocation by one atomic statement: its SELECT if not
yet issued, else its INSERT if not yet issued. -/
def raceStep (inA inB : UpsertInput) (s : RaceSt) (takeA : Bool) : RaceSt :=
  if takeA then
    match s.readA with
    | none => { s with readA := some (getTaskState s.db inA.taskGid inA.projectGid) }
    | some _ =>
      if s.wroteA then s
      else { s with db := taskStateWrite s.db inA.taskGid inA.projectGid
                          inA.currentSectionGid inA.modifiedAt,
                    wroteA := true }
  else
    match s.readB with
    | none => { s with readB := some (getTaskState s.db inB.taskGid inB.projectGid) }
    | some _ =>
      if s.wroteB then s
      else { s with db := taskStateWrite s.db inB.taskGid inB.projectGid
                          inB.currentSectionGid inB.modifiedAt,
                    wroteB := true }

def raceRun (inA inB : UpsertInput) (db0 : List TaskStateRow) (sched : List Bool) : RaceSt :=
  sched.foldl (raceStep inA inB) { db := db0, readA := none, readB := none,
                                   wroteA := false, wroteB := false }

/-! ## TASKS_PROCESS handler (apps/worker/src/handlers/asana-process.ts)

Inputs fetched from the task provider are passed in: the task's
membership section in the pipeline project (`none` when the task is
not in the project) and its `modified_at`.  State: the
`asana_task_state` table and the queue of STAGE_ACTION payloads. -/

structure PipelineSection where
  project_gid : String
  section_gid : String
  stage_key : String
  enabled : Bool
deriving DecidableEq, Repr

def getStageForSection (sections : List PipelineSection) (projectGid sectionGid : String) :
    Option String :=
  (sections.find? fun s =>
    s.project_gid = projectGid ∧ s.section_gid = sectionGid ∧ s.enabled = true).map
    (·.stage_key)

structure ProcSt where
  taskStates : List TaskStateRow
  queue : List StagePayload
deriving DecidableEq, Repr

def handleAsanaProcess (sections : List PipelineSection) (st : ProcSt)
    (taskGid projectGid : String) (currentSection : Option String)
    (modifiedAt : String) : ProcSt :=
  match currentSection with
  | none => st
  | some currentSectionGid =>
    let stepRes := upsertAndDetectChange st.taskStates taskGid projectGid
                     currentSectionGid modifiedAt
    if stepRes.1.changed = false then { st with taskStates := stepRes.2 }
    else
      match getStageForSection sections projectGid currentSectionGid with
      | none => { st with taskStates := stepRes.2 }
      | some stageKey =>
        let payload : StagePayload :=
          { taskGid := taskGid, stageKey := stageKey,
            sectionGid := currentSectionGid, modifiedAt := modifiedAt,
            previousStage := stepRes.1.previousStage }
        { taskStates := setTriggeredStage stepRes.2 taskGid projectGid stageKey,
          queue := st.queue ++ [payload] }

/-! ## RESEARCH_BATCH (apps/worker/src/handlers/research-batch.ts)

The six agent keys in their fixed order, the per-agent outcome (the
LLM call either returns a summary with citations or throws, and the
per-agent catch converts the throw into a failed result), and the
strict-order write loop.  The Notion block payload per section is
reduced to the agent key; the claims are about which sections appear
and in which order. -/

inductive AgentKey
  | market_tam
  | competitors
  | founder_background
  | risks_redflags
  | product_defensibility
  | traction_signals
deriving DecidableEq, Repr

def RESEARCH_ORDER : List AgentKey :=
  [.market_tam, .competitors, .founder_background, .risks_redflags,
   .product_defensibility, .traction_signals]

structure Citation where
  title : String
  url : Option String
deriving DecidableEq, Repr

structure ResearchOutput where
  summary : String
  citations : List Citation
deriving DecidableEq, Repr

/-- Outcome array in spawn order: the handler maps `RESEARCH_ORDER`
over an async closure that catches its own agent's failure. -/
def agentResults (outcomes : AgentKey → Except String ResearchOutput) :
    List (AgentKey × Except String ResearchOutput) :=
  RESEARCH_ORDER.map fun k => (k, outcomes k)

/-- The write loop: iterate the results array in order, write each
successful section, skip failed ones. -/
def writtenSections (results : List (AgentKey × Except String ResearchOutput)) :
    List AgentKey :=
  results.filterMap fun p =>
    match p.2 with
    | .ok _ => some p.1
    | .error _ => none

/-- Index-tagging of a list (promise spawn order), indices from `i`. -/
def indexedFrom {α : Type} : Nat → List α → List (Nat × α)
  | _, [] => []
  | i, a :: as => (i, a) :: indexedFrom (i + 1) as

/-- Semantics of `Promise.all`: however the six promises settle
(`settled` lists the fulfilled slots in completion order), the
resolved array has the value of promise `i` at index `i`. -/
def promiseAllAssemble {α : Type} (n : Nat) (settled : List (Nat × α)) : List α :=
  (List.range n).filterMap fun i =>
    (settled.find? fun x => x.1 = i).map Prod.snd

structure BatchResult where
  runs : List WorkflowRun
  llmCalls : List AgentKey
  written : List AgentKey
  errored : Bool
deriving Repr

/-- Whether an agent's outcome was a success (`item.success` in the
result records). -/
def agentSucceeded (outcomes : AgentKey → Except String ResearchOutput) (k : AgentKey) :
    Bool :=
  match outcomes k with
  | .ok _ => true
  | .error _ => false

/-- Concrete outcome assignment for witnesses: one agent fails, the
other five succeed. -/
def researchOutcomesW : AgentKey → Except String ResearchOutput := fun k =>
  match k with
  | .competitors => .error "boom"
  | _ => .ok { summary := "ok", citations := [] }

/-- RESEARCH_BATCH handler.  Pre-start check on `cancel_requested`
(observed true → clean return, nothing dispatched); otherwise all six
agents run and the successful sections are written in fixed order.
The handler never writes the `workflow_runs` table — `completeRun` is
not called on any of its paths — so `runs` passes through unchanged;
`errored` records whether the handler re-threw (per-agent failures
and the abort path are both caught). -/
def handleResearchBatch (runsDb : List WorkflowRun) (runId : Nat)
    (outcomes : AgentKey → Except String ResearchOutput) : BatchResult :=
  if isCancelRequested runsDb runId then
    { runs := runsDb, llmCalls := [], written := [], errored := false }
  else
    { runs := runsDb, llmCalls := RESEARCH_ORDER,
      written := writtenSections (agentResults outcomes), errored := false }

/-- Closed system for run-status reachability: STAGE_ACTION deliveries
and RESEARCH_BATCH invocations are the only events that touch the
stage state (RESEARCH_BATCH leaving it unchanged). -/
inductive SysEvent
  | stage (p : StagePayload) (now : Nat)
  | batch (runId : Nat) (outcomes : AgentKey → Except String ResearchOutput)

def applySysEvent (st : StageSt) : SysEvent → StageSt
  | .stage p now => handleStageAction st p now
  | .batch runId outcomes =>
      { st with runs := (handleResearchBatch st.runs runId outcomes).runs }

def applySysEvents (events : List SysEvent) (st : StageSt) : StageSt :=
  events.foldl applySysEvent st

def noCanceledRun (db : List WorkflowRun) : Bool :=
  db.all fun r => r.status != .canceled

/-! ## Push channels (db/repos/workflow-runs.repo.ts, gcal-watches part,
and apps/admin/src/routes/gcal-watch.ts)

Rows of `gcal_watches`.  `created_at` ordering is the list order
(`createWatch` appends, so later rows are newer); `expiration_ms` and
`updated_at` are not needed by any claim. -/

inductive WatchStatus
  | active
  | stopped
  | replaced
  | error
deriving DecidableEq, Repr

structure GcalWatch where
  tenant_id : String
  calendar_id : String
  channel_id : String
  resource_id : String
  channel_token : Option String
  sync_token : Option String
  status : WatchStatus
deriving DecidableEq, Repr

/-- INSERT into gcal_watches; the schema default makes the fresh row
`status = 'active'` with a null `sync_token`. -/
def createWatch (db : List GcalWatch) (tenantId calendarId channelId resourceId : String)
    (channelToken : Option String) : List GcalWatch :=
  db ++ [{ tenant_id := tenantId, calendar_id := calendarId, channel_id := channelId,
           resource_id := resourceId, channel_token := channelToken,
           sync_token := none, status := .active }]

/-- SELECT .. WHERE tenant AND calendar AND status = 'active'
ORDER BY created_at DESC LIMIT 1: the newest matching active row. -/
def getActiveWatch (db : List GcalWatch) (tenantId calendarId : String) :
    Option GcalWatch :=
  (db.filter fun w =>
    w.tenant_id = tenantId ∧ w.calendar_id = calendarId ∧ w.status = .active).getLast?

/-- SELECT .. WHERE channel_id AND status IN ('active','replaced'). -/
def getWatchByChannelId (db : List GcalWatch) (channelId : String) : Option GcalWatch :=
  db.find? fun w =>
    w.channel_id = channelId ∧ (w.status = .active ∨ w.status = .replaced)

def updateWatchStatus (db : List GcalWatch) (channelId : String) (status : WatchStatus) :
    List GcalWatch :=
  db.map fun w => if w.channel_id = channelId then { w with status := status } else w

def updateSyncToken (db : List GcalWatch) (channelId syncToken : String) :
    List GcalWatch :=
  db.map fun w => if w.channel_id = channelId then { w with sync_token := some syncToken } else w

def countActive (db : List GcalWatch) (tenantId calendarId : String) : Nat :=
  (db.filter fun w =>
    w.tenant_id = tenantId ∧ w.calendar_id = calendarId ∧ w.status = .active).length

/-- Admin replace route, as the sequence of database states it passes
through: the state as found, after create-new, after copy-token,
after mark-old-replaced.  (`stopChannel` is a provider call with no
database effect; a missing active watch answers 404 and changes
nothing.)  `newChannelId`/`newResourceId` stand for the fresh uuid
channel and the provider's resource id. -/
def replaceRouteStates (db : List GcalWatch) (tenantId calendarId newChannelId newResourceId : String) :
    Option (List (List GcalWatch)) :=
  match getActiveWatch db tenantId calendarId with
  | none => none
  | some oldWatch =>
    let s1 := createWatch db tenantId calendarId newChannelId newResourceId
                oldWatch.channel_token
    let s2 := match oldWatch.sync_token with
      | some t => updateSyncToken s1 newChannelId t
      | none => s1
    let s3 := updateWatchStatus s2 oldWatch.channel_id .replaced
    some [db, s1, s2, s3]

/-! ## Calendar event parsing (packages/shared/src/clients/gcal.client.ts
and the per-event body of apps/worker/src/handlers/gcal-sync.ts)

The title split is the JS regex
`^(.+?)\s*[—-]\s*(.+)$`: a lazy nonempty group of non-line-terminator
characters, optional whitespace, an em dash or hyphen, optional
whitespace, and a nonempty non-line-terminator tail.  `dashSplitAux`
grows group 1 one character at a time (lazy quantifier) and accepts
the first split whose tail matches; whitespace classes follow the JS
`\s` definition. -/

def isJsSpace (c : Char) : Bool :=
  c == ' ' || c == '\t' || c == '\n' || c == '\r' ||
  c.toNat == 11 || c.toNat == 12 || c.toNat == 0xa0 || c.toNat == 0x1680 ||
  (decide (0x2000 ≤ c.toNat) && decide (c.toNat ≤ 0x200a)) ||
  c.toNat == 0x2028 || c.toNat == 0x2029 || c.toNat == 0x202f ||
  c.toNat == 0x205f || c.toNat == 0x3000 || c.toNat == 0xfeff

def isLineTerm (c : Char) : Bool :=
  c == '\n' || c == '\r' || c.toNat == 0x2028 || c.toNat == 0x2029

def isDashChar (c : Char) : Bool :=
  c == '—' || c == '-'

/-- Match `\s*[—-]\s*(.+)$` against the rest of the title, returning
group 2.  The dot of `(.+)` excludes line terminators. -/
def dashMatchTail (rest : List Char) : Option (List Char) :=
  match rest.dropWhile isJsSpace with
  | c :: r2 =>
    if isDashChar c then
      let r3 := r2.dropWhile isJsSpace
      if r3.isEmpty then none
      else if r3.any isLineTerm then none
      else some r3
    else none
  | [] => none

/-- Lazy scan for `^(.+?)\s*[—-]\s*(.+)$`: group 1 takes one more
(non-line-terminator) character whenever the tail fails to match. -/
def dashSplitAux : List Char → List Char → Option (List Char × List Char)
  | _, [] => none
  | acc, c :: rest =>
    if isLineTerm c then none
    else
      match dashMatchTail rest with
      | some g2 => some (acc ++ [c], g2)
      | none => dashSplitAux (acc ++ [c]) rest

def dashMatch (s : String) : Option (String × String) :=
  (dashSplitAux [] s.toList).map fun p => (String.mk p.1, String.mk p.2)

/-- JS `String.prototype.trim`. -/
def jsTrim (s : String) : String :=
  String.mk (((s.toList.dropWhile isJsSpace).reverse.dropWhile isJsSpace).reverse)

/-- JS truthiness on an optional string: `undefined`/`null` and the
empty string are falsy. -/
def jsTruthy (x : Option String) : Option String :=
  match x with
  | none => none
  | some s => if s = "" then none else some s

def leadsWith : List Char → List Char → Bool
  | [], _ => true
  | _ :: _, [] => false
  | a :: as, b :: bs => a == b && leadsWith as bs

def scanFor : List Char → List Char → Bool
  | needle, [] => leadsWith needle []
  | needle, c :: rest => leadsWith needle (c :: rest) || scanFor needle rest

/-- JS `String.prototype.includes`. -/
def strContains (s sub : String) : Bool :=
  scanFor sub.toList s.toList

/-- Character-wise lowercase (the tag comparison is ASCII-only). -/
def strToLower (s : String) : String :=
  String.mk (s.toList.map Char.toLower)

structure GAttendee where
  email : Option String
  displayName : Option String
  self : Bool
deriving DecidableEq, Repr

structure GEvent where
  id : Option String
  status : Option String
  summary : Option String
  description : Option String
  attendees : List GAttendee
  startDateTime : Option String
  startDate : Option String
  hangoutLink : Option String
  htmlLink : Option String
  iCalUID : Option String
deriving DecidableEq, Repr

structure ParsedEvent where
  companyName : Option String
  founderName : Option String
  meetingTime : Option String
  meetingLink : Option String
  attendees : List String
  description : String
deriving DecidableEq, Repr

/-- Check the `[deal]` tag in title or description, case-insensitive. -/
def isDealEvent (ev : GEvent) : Bool :=
  let summary := strToLower (ev.summary.getD "")
  let desc := strToLower (ev.description.getD "")
  strContains summary "[deal]" || strContains desc "[deal]"

/-- Match `\s*[deal]\s*` (case-insensitive, the brackets literal) at
the head of the character list; on success return the remainder. -/
def matchTagAt (cs : List Char) : Option (List Char) :=
  match cs.dropWhile isJsSpace with
  | '[' :: c1 :: c2 :: c3 :: c4 :: ']' :: rest =>
    if c1.toLower == 'd' && c2.toLower == 'e' && c3.toLower == 'a' && c4.toLower == 'l' then
      some (rest.dropWhile isJsSpace)
    else none
  | _ => none

/-- Global replace of `/\s*\[deal\]\s*/gi` by the empty string: scan
left to right, splice out each match, resume after it.  Each
recursive step consumes at least one character, so fuel equal to the
input length is never exhausted. -/
def stripTagAux : Nat → List Char → List Char
  | 0, cs => cs
  | _ + 1, [] => []
  | fuel + 1, c :: rest =>
    match matchTagAt (c :: rest) with
    | some rem => stripTagAux fuel rem
    | none => c :: stripTagAux fuel rest

def stripDealTag (s : String) : String :=
  String.mk (stripTagAux s.toList.length s.toList)

/-- Translation of `parseCalendlyEvent`: dash-pattern split of the
title, else first-non-self-attendee fallback; `||` chains keep JS
falsy semantics. -/
def parseCalendlyEvent (ev : GEvent) : ParsedEvent :=
  let summary := ev.summary.getD ""
  let description := ev.description.getD ""
  let attendees := (ev.attendees.filter fun a => !a.self).map fun a =>
    (((jsTruthy a.email).orElse fun _ => jsTruthy a.displayName).getD "unknown")
  let names : Option String × Option String :=
    match dashMatch summary with
    | some (g1, g2) => (some (jsTrim g1), some (jsTrim g2))
    | none =>
      let founderName := match ev.attendees.find? (fun a => !a.self) with
        | some a => (jsTruthy a.displayName).orElse fun _ => jsTruthy a.email
        | none => none
      (jsTruthy summary, founderName)
  let meetingTime := (jsTruthy ev.startDateTime).orElse fun _ => jsTruthy ev.startDate
  let meetingLink := (jsTruthy ev.hangoutLink).orElse fun _ => jsTruthy ev.htmlLink
  { companyName := names.1, founderName := names.2, meetingTime := meetingTime,
    meetingLink := meetingLink, attendees := attendees, description := description }

/-- Per-event body of `handleGcalSync`: skip cancelled and untagged
events, parse, strip the `[deal]` tag from the company name only,
then upsert the deal with `|| undefined` on both names.  `newDealId`
stands for the uuid the insert would generate; the deal-object
materialization branch is an external side effect and not part of the
deals-table state. -/
def processDealEvent (deals : List Deal) (calendarId newDealId : String) (ev : GEvent) :
    List Deal :=
  match ev.id with
  | none => deals
  | some eventId =>
    if ev.status = some "cancelled" then deals
    else if isDealEvent ev = false then deals
    else
      let parsed := parseCalendlyEvent ev
      let strippedCompany := match parsed.companyName with
        | some c => if c = "" then some c else some (jsTrim (stripDealTag c))
        | none => none
      upsertDeal deals newDealId calendarId eventId
        (jsTruthy strippedCompany) (jsTruthy parsed.founderName)

/-! ## Calendar webhook router (apps/ingress, gcal webhook route)

Headers-only request; absent headers are `undefined` (modelled
`none`, with the empty string equally falsy for the `!channelId`
checks).  The body of the `try` block touches storage three times —
channel lookup, idempotency claim, enqueue — and any thrown storage
fault lands in the catch, which answers 200; the three `DbRes`
oracles inject those outcomes.  The result is the HTTP status
together with whether a GCAL_SYNC job was enqueued. -/

structure GcalPingHeaders where
  channelId : Option String
  resourceId : Option String
  resourceState : Option String
  messageNumber : Option String
  channelToken : Option String
deriving DecidableEq, Repr

inductive DbRes (α : Type)
  | ok (val : α)
  | fault
deriving DecidableEq, Repr

def isMissingHeader (h : Option String) : Bool :=
  match h with
  | none => true
  | some s => s == ""

def gcalWebhookHandler (h : GcalPingHeaders)
    (watchLookup : DbRes (Option GcalWatch))
    (claimRes : DbRes Bool)
    (enqueueRes : DbRes Unit) : Nat × Bool :=
  if isMissingHeader h.channelId || isMissingHeader h.resourceId then (400, false)
  else if h.resourceState = some "sync" then (200, false)
  else
    match watchLookup with
    | .fault => (200, false)
    | .ok none => (200, false)
    | .ok (some watch) =>
      if watch.resource_id ≠ h.resourceId.getD "" then (200, false)
      else if (jsTruthy h.channelToken).isSome ∧ (jsTruthy watch.channel_token).isSome ∧
          h.channelToken ≠ watch.channel_token then (200, false)
      else
        match claimRes with
        | .fault => (200, false)
        | .ok false => (200, false)
        | .ok true =>
          match enqueueRes with
          | .fault => (200, false)
          | .ok _ => (200, true)

/-! ## Sample fixtures used by witnesses and counterexamples -/

def sampleDeal : Deal :=
  { id := "dl", gcal_calendar_id := "primary", gcal_event_id := "evt-0",
    company_name := some "Acme", founder_name := some "Jane",
    asana_task_gid := some "task-1", current_stage := "FIRST_MEETING" }

def sampleStageSt : StageSt :=
  { keys := [], deals := [sampleDeal], runs := [], queue := [], nextRunId := 0 }

def samplePayload : StagePayload :=
  { taskGid := "task-1", stageKey := "IN_DILIGENCE", sectionGid := "sec-2",
    modifiedAt := "2025-01-02T03:04:05Z", previousStage := some "FIRST_MEETING" }

def sampleWatch : GcalWatch :=
  { tenant_id := "T", calendar_id := "primary", channel_id := "gcal-A",
    resource_id := "rA", channel_token := none, sync_token := some "T1",
    status := .active }

def sampleDealEvent : GEvent :=
  { id := some "evt-1", status := none, summary := some "Acme — Jane [deal]",
    description := none, attendees := [], startDateTime := none, startDate := none,
    hangoutLink := none, htmlLink := none, iCalUID := none }

def sampleRun : WorkflowRun :=
  { id := 1, deal_id := "dl", stage_key := "IN_DILIGENCE",
    status := .running, cancel_requested := true, finished_at := none }

def sampleTaskRow : TaskStateRow :=
  { task_gid := "task-1", project_gid := "proj-1", last_seen_section_gid := some "sec-1",
    last_processed_modified_at := some "m0", last_triggered_stage := some "FIRST_MEETING" }

def sampleUpsertA : UpsertInput :=
  { taskGid := "task-1", projectGid := "proj-1", currentSectionGid := "sec-2",
    modifiedAt := "m1" }

def sampleUpsertB : UpsertInput :=
  { taskGid := "task-1", projectGid := "proj-1", currentSectionGid := "sec-2",
    modifiedAt := "m2" }

/-! ## Theorems -/

theorem applyRunOp_preserves (db : List WorkflowRun) (op : RunOp)
    (h : db.all finishedIffTerminal = true) :
    (applyRunOp db op).all finishedIffTerminal = true := by
  rw [List.all_eq_true] at h
  cases op with
  | create runId dealId stageKey =>
    rw [applyRunOp, createRun, List.all_eq_true]
    intro r hr
    rcases List.mem_append.mp hr with h1 | h2
    · exact h r h1
    · simp only [List.mem_singleton] at h2
      subst h2
      rfl
  | complete runId status now =>
    rw [applyRunOp, completeRun, List.all_eq_true]
    intro r hr
    rcases List.mem_map.mp hr with ⟨r0, hr0, hmap⟩
    by_cases hid : r0.id = runId
    · rw [if_pos hid] at hmap
      subst hmap
      cases status <;> rfl
    · rw [if_neg hid] at hmap
      subst hmap
      exact h r0 hr0
  | requestCancel dealId =>
    rw [applyRunOp, requestCancellation, List.all_eq_true]
    intro r hr
    rcases List.mem_map.mp hr with ⟨r0, hr0, hmap⟩
    have hfin := h r0 hr0
    by_cases hc : r0.deal_id = dealId ∧ r0.status = .running
    · rw [if_pos hc] at hmap
      subst hmap
      exact hfin
    · rw [if_neg hc] at hmap
      subst hmap
      exact hfin

theorem applyRunOps_preserves (ops : List RunOp) :
    ∀ db : List WorkflowRun, db.all finishedIffTerminal = true →
      (applyRunOps ops db).all finishedIffTerminal = true := by
  induction ops with
  | nil => intro db h; exact h
  | cons op rest ih =>
    intro db h
    exact ih (applyRunOp db op) (applyRunOp_preserves db op h)

/-- C4 (counterexample): `completeRun` has no `status = 'running'`
guard, so a run already closed as `succeeded` is re-closed as
`failed` by a second `completeRun` — a terminal status transitions
again, contradicting the claim's write-once property. -/
theorem terminal_rewrite_counterexample :
    statusOf (completeRun (createRun [] 1 "dl" "IC_REVIEW") 1 .succeeded 10) 1 =
      some .succeeded ∧
    statusOf (completeRun (completeRun (createRun [] 1 "dl" "IC_REVIEW") 1 .succeeded 10)
      1 .failed 20) 1 = some .failed := by
  constructor <;> rfl

/-- C4 (amended): across every sequence of workflow-run operations
(createRun, completeRun, requestCancellation) from the empty table,
`finished_at` is non-null exactly when the status is terminal; the
write-once half of the claim fails (see the counterexample) because
`completeRun` updates unconditionally. -/
theorem finished_iff_terminal_invariant (ops : List RunOp) :
    (applyRunOps ops []).all finishedIffTerminal = true :=
  applyRunOps_preserves ops [] rfl

/-- C10: a `runId` with no workflow_runs row makes `isCancelRequested`
return `false` (the `?? false` fallback) rather than fail, so a
RESEARCH_BATCH carrying a nonexistent runId passes the pre-start
check and dispatches all six agents; every poll against such a
database observes `false`. -/
theorem isCancelRequested_missing_run (db : List WorkflowRun) (runId : Nat)
    (outcomes : AgentKey → Except String ResearchOutput)
    (h : db.find? (fun r => r.id = runId) = none) :
    isCancelRequested db runId = false ∧
    (handleResearchBatch db runId outcomes).llmCalls = RESEARCH_ORDER := by
  have h1 : isCancelRequested db runId = false := by
    rw [isCancelRequested, h]
  refine ⟨h1, ?_⟩
  rw [handleResearchBatch, h1]
  simp

theorem isCancelRequested_missing_run_witness :
    isCancelRequested [sampleRun] 2 = false ∧
    (handleResearchBatch [sampleRun] 2
      (fun _ => .error "no llm")).llmCalls = RESEARCH_ORDER :=
  isCancelRequested_missing_run [sampleRun] 2 (fun _ => .error "no llm") rfl

/-- C6: on the calendar event titled "Acme — Jane [deal]" the sync
handler stores `company_name = "Acme"` but
`founder_name = "Jane [deal]"`: the dash pattern puts the tag in
group 2 and the `[deal]` strip is applied to the company name only,
so the founder does not come out as "Jane" as the spec's scenario
expects. -/
theorem deal_title_founder_tag_eval :
    processDealEvent [] "primary" "deal-uuid" sampleDealEvent =
      [{ id := "deal-uuid", gcal_calendar_id := "primary", gcal_event_id := "evt-1",
         company_name := some "Acme", founder_name := some "Jane [deal]",
         asana_task_gid := none, current_stage := "FIRST_MEETING" }] ∧
    some "Jane [deal]" ≠ some "Jane" := by
  constructor
  · decide
  · decide

theorem handleStageAction_dup (st : StageSt) (p : StagePayload) (now : Nat)
    (h : stageActionKey p.taskGid p.sectionGid p.modifiedAt ∈ st.keys) :
    handleStageAction st p now = st := by
  rw [handleStageAction.eq_def]
  simp [claimKey, h]

theorem handleStageAction_key_mem (st : StageSt) (p : StagePayload) (now : Nat) :
    stageActionKey p.taskGid p.sectionGid p.modifiedAt ∈ (handleStageAction st p now).keys := by
  by_cases h : stageActionKey p.taskGid p.sectionGid p.modifiedAt ∈ st.keys
  · rw [handleStageAction_dup st p now h]
    exact h
  · rw [handleStageAction.eq_def]
    simp only [claimKey, h, if_neg, if_false]
    split
    · exact List.mem_cons_self _ _
    · exact List.mem_cons_self _ _

/-- C1: a STAGE_ACTION delivery that claims the key
`stage:(task,section,modified)` performs the downstream effects
exactly once — the deal-stage update, one new WorkflowRun, and
exactly one RESEARCH_BATCH enqueue for an IN_DILIGENCE transition —
and any sequence of redeliveries of the same payload after the
successful claim leaves the state exactly at the one-delivery state
(each redelivery is a no-op). -/
theorem stage_action_single_fire (st : StageSt) (p : StagePayload) (now : Nat) (d : Deal)
    (hk : stageActionKey p.taskGid p.sectionGid p.modifiedAt ∉ st.keys)
    (hd : getDealByAsanaTask st.deals p.taskGid = some d)
    (hs : p.stageKey = "IN_DILIGENCE") :
    (∀ nows : List Nat,
      nows.foldl (fun s t => handleStageAction s p t) (handleStageAction st p now) =
        handleStageAction st p now) ∧
    (handleStageAction st p now).keys =
      stageActionKey p.taskGid p.sectionGid p.modifiedAt :: st.keys ∧
    (handleStageAction st p now).queue =
      st.queue ++ [Job.researchBatch st.nextRunId d.id (d.company_name.getD "Unknown Company")
        (d.founder_name.getD "Unknown Founder")] ∧
    (handleStageAction st p now).runs.length = st.runs.length + 1 := by
  have hfold : ∀ nows : List Nat,
      nows.foldl (fun s t => handleStageAction s p t) (handleStageAction st p now) =
        handleStageAction st p now := by
    have hmem := handleStageAction_key_mem st p now
    intro nows
    induction nows with
    | nil => rfl
    | cons t ts ih =>
      rw [List.foldl_cons, handleStageAction_dup _ p t hmem]
      exact ih
  refine ⟨hfold, ?_, ?_, ?_⟩
  · rw [handleStageAction.eq_def]
    simp [claimKey, hk, hd]
  · rw [handleStageAction.eq_def]
    simp [claimKey, hk, hd, hs]
  · rw [handleStageAction.eq_def]
    simp only [claimKey, hk, if_neg, if_false, hd, hs]
    split <;> split <;>
      simp_all [createRun, completeRun, requestCancellation]

theorem stage_action_single_fire_witness :
    ([9, 13].foldl (fun s t => handleStageAction s samplePayload t)
        (handleStageAction sampleStageSt samplePayload 5) =
      handleStageAction sampleStageSt samplePayload 5) ∧
    (handleStageAction sampleStageSt samplePayload 5).queue =
      [Job.researchBatch 0 "dl" "Acme" "Jane"] := by
  obtain ⟨h1, h2, h3, h4⟩ := stage_action_single_fire sampleStageSt samplePayload 5 sampleDeal
    (by decide) (by decide) rfl
  exact ⟨h1 [9, 13], by rw [h3]; rfl⟩

/-- C2 (counterexample): running the admin replace operation on a
database holding exactly one active channel passes through an
intermediate state — after create-new, before mark-old-replaced —
with two active rows for the same `(tenant, calendar_id)`, so "at
most one active row at every instant" fails during Replace. -/
theorem push_channel_two_active_counterexample :
    (replaceRouteStates [sampleWatch] "T" "primary" "gcal-B" "rB").map
        (List.map fun s => countActive s "T" "primary") = some [1, 2, 2, 1] ∧
    ¬ (2 ≤ 1) := by
  constructor
  · rfl
  · decide

/-- C3 (counterexample): a RESEARCH_BATCH that observes
`cancel_requested = true` at the pre-start check returns cleanly
without dispatching anything, but the WorkflowRun is not closed as
`canceled` — its status is still `running` afterwards; no code path
of the handler writes the workflow_runs table. -/
theorem cancel_no_canceled_close_counterexample :
    (handleResearchBatch [sampleRun] 1 (fun _ => .error "aborted")).errored = false ∧
    (handleResearchBatch [sampleRun] 1 (fun _ => .error "aborted")).llmCalls = [] ∧
    statusOf (handleResearchBatch [sampleRun] 1 (fun _ => .error "aborted")).runs 1 =
      some .running := by
  refine ⟨rfl, rfl, rfl⟩

/-- C5 (counterexample): `upsertAndDetectChange` is a SELECT followed
by a separate INSERT, so under the read-read-write-write interleaving
two concurrent invocations for the same task both observe the same
previous `last_seen_section_gid` — the atomic-single-statement
property the claim asserts does not hold of the source. -/
theorem upsert_lost_update_counterexample :
    (detectChange ((raceRun sampleUpsertA sampleUpsertB
        [sampleTaskRow] [true, false, true, false]).readA.getD none)
        "sec-2").previousSectionGid = some "sec-1" ∧
    (detectChange ((raceRun sampleUpsertA sampleUpsertB
        [sampleTaskRow] [true, false, true, false]).readB.getD none)
        "sec-2").previousSectionGid = some "sec-1" := by
  refine ⟨rfl, rfl⟩

/-- C7 (counterexample): a first-observation TASKS_PROCESS invocation
(no prior row) enqueues nothing but does write the database — the
upsert stores the observed section — so the invocation is not a
no-op on the stored state as claimed. -/
theorem tasks_process_first_observation_writes :
    (handleAsanaProcess [] { taskStates := [], queue := [] } "task-1" "proj-1"
        (some "sec-1") "m1").queue = [] ∧
    (handleAsanaProcess [] { taskStates := [], queue := [] } "task-1" "proj-1"
        (some "sec-1") "m1").taskStates ≠ [] := by
  constructor
  · rfl
  · decide

theorem taskKeyPred_update (tg pg cur mod : String) (r : TaskStateRow) :
    (decide ((if r.task_gid = tg ∧ r.project_gid = pg then
        { r with last_seen_section_gid := some cur,
                 last_processed_modified_at := some mod }
      else r).task_gid = tg ∧
      (if r.task_gid = tg ∧ r.project_gid = pg then
        { r with last_seen_section_gid := some cur,
                 last_processed_modified_at := some mod }
      else r).project_gid = pg)) =
    decide (r.task_gid = tg ∧ r.project_gid = pg) := by
  by_cases h : r.task_gid = tg ∧ r.project_gid = pg
  · simp [h]
  · simp [h]

theorem getTaskState_write (db : List TaskStateRow) (tg pg cur mod : String) :
    ∃ r, getTaskState (taskStateWrite db tg pg cur mod) tg pg = some r ∧
      r.last_seen_section_gid = some cur ∧
      r.last_processed_modified_at = some mod := by
  rw [taskStateWrite]
  by_cases hex : (getTaskState db tg pg).isSome
  · rw [if_pos hex]
    obtain ⟨r0, hr0⟩ := Option.isSome_iff_exists.mp hex
    have hp0 := List.find?_some (p := fun r : TaskStateRow =>
      decide (r.task_gid = tg ∧ r.project_gid = pg)) (by rw [getTaskState] at hr0; exact hr0)
    rw [getTaskState, List.find?_map]
    have hcomp : ((fun r : TaskStateRow => decide (r.task_gid = tg ∧ r.project_gid = pg)) ∘
        (fun r : TaskStateRow =>
          if r.task_gid = tg ∧ r.project_gid = pg then
            { r with last_seen_section_gid := some cur,
                     last_processed_modified_at := some mod }
          else r)) =
        fun r : TaskStateRow => decide (r.task_gid = tg ∧ r.project_gid = pg) := by
      funext r
      exact taskKeyPred_update tg pg cur mod r
    rw [hcomp]
    rw [getTaskState] at hr0
    rw [hr0]
    have hkey : r0.task_gid = tg ∧ r0.project_gid = pg := of_decide_eq_true hp0
    refine ⟨_, rfl, ?_, ?_⟩
    · simp [hkey]
    · simp [hkey]
  · rw [if_neg hex]
    have hnone : getTaskState db tg pg = none := Option.not_isSome_iff_eq_none.mp hex
    rw [getTaskState, List.find?_append]
    rw [getTaskState] at hnone
    rw [hnone]
    refine ⟨{ task_gid := tg, project_gid := pg, last_seen_section_gid := some cur,
              last_processed_modified_at := some mod, last_triggered_stage := none },
      ?_, rfl, rfl⟩
    simp

theorem taskStateWrite_idem (db : List TaskStateRow) (tg pg cur mod : String) :
    taskStateWrite (taskStateWrite db tg pg cur mod) tg pg cur mod =
      taskStateWrite db tg pg cur mod := by
  have hsome : (getTaskState (taskStateWrite db tg pg cur mod) tg pg).isSome := by
    obtain ⟨r, hr, -, -⟩ := getTaskState_write db tg pg cur mod
    rw [hr]
    rfl
  set W := taskStateWrite db tg pg cur mod with hWdef
  rw [taskStateWrite, if_pos hsome, hWdef, taskStateWrite]
  by_cases hex : (getTaskState db tg pg).isSome
  · rw [if_pos hex, List.map_map]
    apply List.map_congr_left
    intro r _
    by_cases h : r.task_gid = tg ∧ r.project_gid = pg
    · simp [h]
    · simp [h]
  · rw [if_neg hex, List.map_append]
    have hnone : getTaskState db tg pg = none := Option.not_isSome_iff_eq_none.mp hex
    rw [getTaskState, List.find?_eq_none] at hnone
    congr 1
    · have hid : ∀ r ∈ db, (if r.task_gid = tg ∧ r.project_gid = pg then
          ({ r with last_seen_section_gid := some cur,
                    last_processed_modified_at := some mod } : TaskStateRow)
        else r) = r := by
        intro r hr
        have hnr := hnone r hr
        rw [if_neg (by simpa using hnr)]
      calc db.map _ = db.map id := List.map_congr_left hid
        _ = db := List.map_id db
    · simp

theorem handleAsanaProcess_nochange (sections : List PipelineSection) (st : ProcSt)
    (tg pg cur mod : String)
    (hchanged : (detectChange (getTaskState st.taskStates tg pg) cur).changed = false) :
    handleAsanaProcess sections st tg pg (some cur) mod =
      { st with taskStates := taskStateWrite st.taskStates tg pg cur mod } := by
  rw [handleAsanaProcess]
  simp only [upsertAndDetectChange, hchanged]
  rfl

/-- C7 (amended): when the previously recorded section is null (first
observation) or equal to the task's current section, TASKS_PROCESS
enqueues no STAGE_ACTION (the queue is untouched); the upsert does
still write the observed section and modified-at, but repeating the
same dispatch is idempotent — the second and every later identical
dispatch leaves the state exactly as the first left it. -/
theorem tasks_process_stability (sections : List PipelineSection) (st : ProcSt)
    (tg pg cur mod : String)
    (h : (getTaskState st.taskStates tg pg).bind (·.last_seen_section_gid) = none ∨
         (getTaskState st.taskStates tg pg).bind (·.last_seen_section_gid) = some cur) :
    (handleAsanaProcess sections st tg pg (some cur) mod).queue = st.queue ∧
    handleAsanaProcess sections (handleAsanaProcess sections st tg pg (some cur) mod)
        tg pg (some cur) mod =
      handleAsanaProcess sections st tg pg (some cur) mod := by
  have hchanged : (detectChange (getTaskState st.taskStates tg pg) cur).changed = false := by
    rw [detectChange]
    rcases h with h | h <;> simp [h]
  have h1 := handleAsanaProcess_nochange sections st tg pg cur mod hchanged
  obtain ⟨r, hr, hseen, -⟩ := getTaskState_write st.taskStates tg pg cur mod
  have hchanged2 : (detectChange
      (getTaskState (taskStateWrite st.taskStates tg pg cur mod) tg pg) cur).changed = false := by
    rw [hr, detectChange]
    simp [hseen]
  have h2 := handleAsanaProcess_nochange sections
    { st with taskStates := taskStateWrite st.taskStates tg pg cur mod } tg pg cur mod
    (by simpa using hchanged2)
  refine ⟨by rw [h1], ?_⟩
  rw [h1, h2]
  simp [taskStateWrite_idem]

theorem tasks_process_stability_witness :
    (handleAsanaProcess [] { taskStates := [sampleTaskRow], queue := [] } "task-1" "proj-1"
        (some "sec-1") "m1").queue = [] ∧
    handleAsanaProcess [] (handleAsanaProcess [] { taskStates := [sampleTaskRow], queue := [] }
        "task-1" "proj-1" (some "sec-1") "m1") "task-1" "proj-1" (some "sec-1") "m1" =
      handleAsanaProcess [] { taskStates := [sampleTaskRow], queue := [] } "task-1" "proj-1"
        (some "sec-1") "m1" :=
  tasks_process_stability [] _ "task-1" "proj-1" "sec-1" "m1" (Or.inr (by decide))

/-- C5 (amended): `upsertAndDetectChange` is a SELECT followed by a
separate INSERT, not one atomic statement.  Sequentially it does
return the previous `last_seen_section_gid` and store the new one;
but interleaving two concurrent invocations read-read-write-write
makes both observe the same previous value, so the claim's
no-lost-update guarantee does not hold (double-effect is prevented
only by the STAGE_ACTION idempotency key downstream). -/
theorem upsert_two_statement_behavior
    (db : List TaskStateRow) (tg pg cur mod s0 m0 : String) (trig : Option String)
    (curA mA curB mB : String) :
    ((upsertAndDetectChange db tg pg cur mod).1.previousSectionGid =
      (getTaskState db tg pg).bind (·.last_seen_section_gid)) ∧
    (∃ r, getTaskState ((upsertAndDetectChange db tg pg cur mod).2) tg pg = some r ∧
      r.last_seen_section_gid = some cur ∧
      r.last_processed_modified_at = some mod) ∧
    (detectChange ((raceRun ⟨tg, pg, curA, mA⟩ ⟨tg, pg, curB, mB⟩
        [⟨tg, pg, some s0, some m0, trig⟩] [true, false, true, false]).readA.getD none)
        curA).previousSectionGid = some s0 ∧
    (detectChange ((raceRun ⟨tg, pg, curA, mA⟩ ⟨tg, pg, curB, mB⟩
        [⟨tg, pg, some s0, some m0, trig⟩] [true, false, true, false]).readB.getD none)
        curB).previousSectionGid = some s0 := by
  refine ⟨rfl, ?_, ?_, ?_⟩
  · exact getTaskState_write db tg pg cur mod
  · simp [raceRun, raceStep, getTaskState, detectChange, taskStateWrite]
  · simp [raceRun, raceStep, getTaskState, detectChange, taskStateWrite]

theorem countActive_updateSyncToken (db : List GcalWatch) (ch tok t c : String) :
    countActive (updateSyncToken db ch tok) t c = countActive db t c := by
  rw [countActive, countActive, ← List.countP_eq_length_filter, ← List.countP_eq_length_filter,
    updateSyncToken, List.countP_map]
  apply List.countP_congr
  intro w _
  by_cases h : w.channel_id = ch
  · simp [Function.comp, h]
  · simp [Function.comp, h]

theorem countActive_updateWatchStatus_replaced (db : List GcalWatch) (ch t c : String) :
    countActive (updateWatchStatus db ch .replaced) t c =
      db.countP fun w =>
        decide (w.tenant_id = t ∧ w.calendar_id = c ∧ w.status = .active) &&
        decide (w.channel_id ≠ ch) := by
  rw [countActive, ← List.countP_eq_length_filter, updateWatchStatus, List.countP_map]
  apply List.countP_congr
  intro w _
  by_cases h : w.channel_id = ch
  · simp [Function.comp, h]
  · simp [Function.comp, h]

/-- C2 (amended): starting from a database whose only active row for
`(tenant, calendar)` is the old watch (and a fresh new channel id),
the replace operation's four observable states have active-row counts
1, 2, 2, 1: there is never a gap with zero active rows, but between
create-new and mark-old-replaced exactly two rows are active, so "at
most one active at every instant" holds before and after Replace yet
not during it. -/
theorem replace_active_counts (db : List GcalWatch) (t c nc nr : String) (old : GcalWatch)
    (h2 : (db.filter fun w => w.tenant_id = t ∧ w.calendar_id = c ∧ w.status = .active) = [old])
    (h4 : ∀ w ∈ db, w.channel_id ≠ nc) :
    (replaceRouteStates db t c nc nr).map (List.map fun s => countActive s t c) =
      some [1, 2, 2, 1] := by
  have hold_filter : old ∈ db.filter
      (fun w => w.tenant_id = t ∧ w.calendar_id = c ∧ w.status = .active) := by
    rw [h2]
    exact List.mem_singleton.mpr rfl
  have hold_mem : old ∈ db := List.mem_of_mem_filter hold_filter
  have hnc_old : old.channel_id ≠ nc := h4 old hold_mem
  have hact : getActiveWatch db t c = some old := by
    rw [getActiveWatch, h2]
    rfl
  have c0 : countActive db t c = 1 := by
    rw [countActive, h2]
    rfl
  have c1 : countActive (db ++
      [({ tenant_id := t, calendar_id := c, channel_id := nc, resource_id := nr,
          channel_token := old.channel_token, sync_token := none,
          status := .active } : GcalWatch)]) t c = 2 := by
    rw [countActive, List.filter_append, h2]
    simp
  have cP0 : (db.countP fun w =>
      decide (w.tenant_id = t ∧ w.calendar_id = c ∧ w.status = .active) &&
      decide (w.channel_id ≠ old.channel_id)) = 0 := by
    rw [List.countP_eq_length_filter]
    have hflip : (db.filter fun w =>
        decide (w.tenant_id = t ∧ w.calendar_id = c ∧ w.status = .active) &&
        decide (w.channel_id ≠ old.channel_id)) =
        (db.filter fun w => decide (w.channel_id ≠ old.channel_id) &&
          decide (w.tenant_id = t ∧ w.calendar_id = c ∧ w.status = .active)) :=
      List.filter_congr (fun a _ => by rw [Bool.and_comm])
    rw [hflip, ← List.filter_filter, h2]
    simp
  have cPnew : (List.countP (fun w =>
      decide (w.tenant_id = t ∧ w.calendar_id = c ∧ w.status = .active) &&
      decide (w.channel_id ≠ old.channel_id))
      [({ tenant_id := t, calendar_id := c, channel_id := nc, resource_id := nr,
          channel_token := old.channel_token, sync_token := none,
          status := .active } : GcalWatch)]) = 1 := by
    have hne : nc ≠ old.channel_id := Ne.symm hnc_old
    simp [hne]
  rw [replaceRouteStates, hact]
  cases hst : old.sync_token with
  | none =>
    simp only [hst, createWatch, Option.map_some', List.map_cons, List.map_nil,
      Option.some.injEq]
    rw [c0, c1]
    rw [countActive_updateWatchStatus_replaced, List.countP_append, cP0, cPnew]
  | some tok =>
    simp only [hst, createWatch, Option.map_some', List.map_cons, List.map_nil,
      Option.some.injEq]
    rw [c0, c1, countActive_updateSyncToken, c1]
    rw [countActive_updateWatchStatus_replaced]
    rw [updateSyncToken, List.countP_map]
    have hdrop : ∀ w ∈ db ++
        [({ tenant_id := t, calendar_id := c, channel_id := nc, resource_id := nr,
            channel_token := old.channel_token, sync_token := none,
            status := .active } : GcalWatch)],
        ((fun w : GcalWatch =>
          decide (w.tenant_id = t ∧ w.calendar_id = c ∧ w.status = .active) &&
          decide (w.channel_id ≠ old.channel_id)) ∘
         (fun w : GcalWatch =>
          if w.channel_id = nc then { w with sync_token := some tok } else w)) w ↔
        (decide (w.tenant_id = t ∧ w.calendar_id = c ∧ w.status = .active) &&
          decide (w.channel_id ≠ old.channel_id)) = true := by
      intro w _
      by_cases h : w.channel_id = nc
      · simp [Function.comp, h]
      · simp [Function.comp, h]
    rw [List.countP_congr hdrop]
    rw [List.countP_append, cP0, cPnew]

theorem replace_active_counts_witness :
    (replaceRouteStates [sampleWatch] "T" "primary" "gcal-B" "rB").map
        (List.map fun s => countActive s "T" "primary") = some [1, 2, 2, 1] :=
  replace_active_counts [sampleWatch] "T" "primary" "gcal-B" "rB" sampleWatch
    (by decide) (by decide)

theorem research_batch_runs_unchanged (db : List WorkflowRun) (runId : Nat)
    (outcomes : AgentKey → Except String ResearchOutput) :
    (handleResearchBatch db runId outcomes).runs = db := by
  rw [handleResearchBatch]
  split <;> rfl

theorem noCanceledRun_requestCancellation (db : List WorkflowRun) (dealId : String)
    (h : noCanceledRun db = true) : noCanceledRun (requestCancellation db dealId) = true := by
  rw [noCanceledRun, List.all_eq_true] at h ⊢
  intro r hr
  rcases List.mem_map.mp hr with ⟨r0, hr0, hmap⟩
  have hh := h r0 hr0
  by_cases hc : r0.deal_id = dealId ∧ r0.status = .running
  · rw [if_pos hc] at hmap
    subst hmap
    simpa using hh
  · rw [if_neg hc] at hmap
    subst hmap
    exact hh

theorem noCanceledRun_createRun (db : List WorkflowRun) (runId : Nat)
    (dealId stageKey : String) (h : noCanceledRun db = true) :
    noCanceledRun (createRun db runId dealId stageKey) = true := by
  rw [noCanceledRun, List.all_eq_true] at h ⊢
  intro r hr
  rcases List.mem_append.mp hr with h1 | h2
  · exact h r h1
  · simp only [List.mem_singleton] at h2
    subst h2
    rfl

theorem noCanceledRun_completeRun_succeeded (db : List WorkflowRun) (runId : Nat)
    (now : Nat) (h : noCanceledRun db = true) :
    noCanceledRun (completeRun db runId .succeeded now) = true := by
  rw [noCanceledRun, List.all_eq_true] at h ⊢
  intro r hr
  rcases List.mem_map.mp hr with ⟨r0, hr0, hmap⟩
  have hh := h r0 hr0
  by_cases hid : r0.id = runId
  · rw [if_pos hid] at hmap
    subst hmap
    rfl
  · rw [if_neg hid] at hmap
    subst hmap
    exact hh

theorem noCanceledRun_handleStageAction (st : StageSt) (p : StagePayload) (now : Nat)
    (h : noCanceledRun st.runs = true) :
    noCanceledRun (handleStageAction st p now).runs = true := by
  by_cases hk : stageActionKey p.taskGid p.sectionGid p.modifiedAt ∈ st.keys
  · rw [handleStageAction_dup st p now hk]
    exact h
  · rw [handleStageAction.eq_def]
    simp only [claimKey, hk, if_neg, if_false]
    cases hd : getDealByAsanaTask st.deals p.taskGid with
    | none => exact h
    | some d =>
      dsimp only
      apply noCanceledRun_completeRun_succeeded
      split
      · apply noCanceledRun_createRun
        split
        · exact noCanceledRun_requestCancellation st.runs d.id h
        · exact h
      · split
        · apply noCanceledRun_createRun
          split
          · exact noCanceledRun_requestCancellation st.runs d.id h
          · exact h
        · split
          · apply noCanceledRun_requestCancellation
            apply noCanceledRun_createRun
            split
            · exact noCanceledRun_requestCancellation st.runs d.id h
            · exact h
          · apply noCanceledRun_createRun
            split
            · exact noCanceledRun_requestCancellation st.runs d.id h
            · exact h

theorem noCanceledRun_applySysEvents (events : List SysEvent) :
    ∀ st : StageSt, noCanceledRun st.runs = true →
      noCanceledRun (applySysEvents events st).runs = true := by
  induction events with
  | nil => intro st h; exact h
  | cons e rest ih =>
    intro st h
    apply ih
    cases e with
    | stage p now => exact noCanceledRun_handleStageAction st p now h
    | batch runId outcomes =>
      simpa [applySysEvent, research_batch_runs_unchanged] using h

/-- C3 (amended): a handler observing `cancel_requested = true` at the
pre-start check short-circuits cleanly — no error, no LLM dispatch,
no write — but the WorkflowRun is not closed as `canceled`: the
handler leaves the runs table untouched, and across every reachable
sequence of system events no run ever has status `canceled` (no code
path calls `completeRun` with `'canceled'`). -/
theorem cancelled_short_circuit_clean
    (runsDb : List WorkflowRun) (runId : Nat)
    (outcomes : AgentKey → Except String ResearchOutput)
    (hc : isCancelRequested runsDb runId = true)
    (events : List SysEvent) (st : StageSt)
    (hn : noCanceledRun st.runs = true) :
    handleResearchBatch runsDb runId outcomes =
      { runs := runsDb, llmCalls := [], written := [], errored := false } ∧
    noCanceledRun (applySysEvents events st).runs = true := by
  constructor
  · rw [handleResearchBatch, hc]
    rfl
  · exact noCanceledRun_applySysEvents events st hn

theorem find?_eq_some_of_unique {α : Type} (p : α → Bool) :
    ∀ (l : List α) (a : α), a ∈ l → p a = true →
      (∀ x ∈ l, p x = true → x = a) → l.find? p = some a := by
  intro l
  induction l with
  | nil => intro a ha _ _; cases ha
  | cons b bs ih =>
    intro a ha hpa huniq
    by_cases hpb : p b = true
    · have hba : b = a := huniq b (List.mem_cons_self b bs) hpb
      rw [List.find?_cons_of_pos bs hpb, hba]
    · rw [List.find?_cons_of_neg bs (by simp [hpb])]
      have ha2 : a ∈ bs := by
        rcases List.mem_cons.mp ha with h | h
        · subst h; exact absurd hpa hpb
        · exact h
      exact ih a ha2 hpa (fun x hx hpx => huniq x (List.mem_cons_of_mem b hx) hpx)

theorem indexedFrom_mem_key {α : Type} :
    ∀ (l : List α) (i : Nat) (x : Nat × α),
      x ∈ indexedFrom i l → i ≤ x.1 ∧ x.1 < i + l.length := by
  intro l
  induction l with
  | nil => intro i x hx; simp [indexedFrom] at hx
  | cons a as ih =>
    intro i x hx
    rw [indexedFrom] at hx
    rcases List.mem_cons.mp hx with h | h
    · subst h
      simp
    · have := ih (i + 1) x h
      simp only [List.length_cons]
      omega

theorem indexedFrom_key_inj {α : Type} :
    ∀ (l : List α) (i : Nat) (x y : Nat × α),
      x ∈ indexedFrom i l → y ∈ indexedFrom i l → x.1 = y.1 → x = y := by
  intro l
  induction l with
  | nil => intro i x y hx _ _; simp [indexedFrom] at hx
  | cons a as ih =>
    intro i x y hx hy hxy
    rw [indexedFrom] at hx hy
    rcases List.mem_cons.mp hx with h1 | h1 <;> rcases List.mem_cons.mp hy with h2 | h2
    · rw [h1, h2]
    · subst h1
      have := indexedFrom_mem_key as (i + 1) y h2
      omega
    · subst h2
      have := indexedFrom_mem_key as (i + 1) x h1
      omega
    · exact ih (i + 1) x y h1 h2 hxy

theorem indexedFrom_get {α : Type} :
    ∀ (l : List α) (i j : Nat) (hj : j < l.length),
      (i + j, l.get ⟨j, hj⟩) ∈ indexedFrom i l := by
  intro l
  induction l with
  | nil => intro i j hj; simp at hj
  | cons a as ih =>
    intro i j hj
    cases j with
    | zero =>
      rw [indexedFrom]
      simp
    | succ j2 =>
      rw [indexedFrom]
      apply List.mem_cons_of_mem
      have h2 := ih (i + 1) j2 (by simpa using hj)
      have harith : i + 1 + j2 = i + (j2 + 1) := by omega
      rw [harith] at h2
      exact h2

theorem assemble_from {α : Type} (settled : List (Nat × α)) :
    ∀ (l : List α) (i : Nat),
      (∀ j (hj : j < l.length),
        settled.find? (fun x => x.1 = i + j) = some (i + j, l.get ⟨j, hj⟩)) →
      (List.range' i l.length).filterMap
        (fun j => (settled.find? fun x => x.1 = j).map Prod.snd) = l := by
  intro l
  induction l with
  | nil => intro i _; rfl
  | cons a as ih =>
    intro i h
    have h0 := h 0 (by simp)
    rw [Nat.add_zero] at h0
    show (i :: List.range' (i + 1) as.length).filterMap _ = a :: as
    rw [List.filterMap_cons, h0]
    show a :: (List.range' (i + 1) as.length).filterMap _ = a :: as
    congr 1
    apply ih (i + 1)
    intro j hj
    have h2 := h (j + 1) (by simpa using hj)
    have harith : i + (j + 1) = i + 1 + j := by omega
    rw [harith] at h2
    exact h2

theorem writtenSections_map (outcomes : AgentKey → Except String ResearchOutput) :
    ∀ l : List AgentKey,
      writtenSections (l.map fun k => (k, outcomes k)) = l.filter (agentSucceeded outcomes) := by
  intro l
  induction l with
  | nil => rfl
  | cons k ks ih =>
    cases hk : outcomes k with
    | ok r =>
      simp [writtenSections, List.filterMap_cons, List.filter_cons, agentSucceeded, hk] at *
      exact ih
    | error e =>
      simp [writtenSections, List.filterMap_cons, List.filter_cons, agentSucceeded, hk] at *
      exact ih

/-- C8: however the six concurrently-spawned agent promises settle
(`settled` is any permutation of the indexed outcome slots),
`Promise.all` resolves to the spawn-order array, so the research page
receives exactly the successful agents' sections in the fixed
RESEARCH_ORDER; one agent's failure does not suppress any successful
peer (every successful agent's section is present), and failed
agents' sections are skipped. -/
theorem research_batch_fixed_order (outcomes : AgentKey → Except String ResearchOutput)
    (settled : List (Nat × (AgentKey × Except String ResearchOutput)))
    (h : settled.Perm (indexedFrom 0 (agentResults outcomes))) :
    promiseAllAssemble (agentResults outcomes).length settled = agentResults outcomes ∧
    writtenSections (promiseAllAssemble (agentResults outcomes).length settled) =
      RESEARCH_ORDER.filter (agentSucceeded outcomes) ∧
    ∀ k, agentSucceeded outcomes k = true →
      k ∈ writtenSections (promiseAllAssemble (agentResults outcomes).length settled) := by
  have hassm : promiseAllAssemble (agentResults outcomes).length settled =
      agentResults outcomes := by
    rw [promiseAllAssemble, List.range_eq_range']
    apply assemble_from
    intro j hj
    apply find?_eq_some_of_unique
    · exact h.mem_iff.mpr (indexedFrom_get (agentResults outcomes) 0 j hj)
    · simp
    · intro x hx hpx
      apply indexedFrom_key_inj (agentResults outcomes) 0 x
        (0 + j, (agentResults outcomes).get ⟨j, hj⟩)
        (h.mem_iff.mp hx) (indexedFrom_get (agentResults outcomes) 0 j hj)
      simp at hpx
      omega
  have hw : writtenSections (promiseAllAssemble (agentResults outcomes).length settled) =
      RESEARCH_ORDER.filter (agentSucceeded outcomes) := by
    rw [hassm, agentResults, writtenSections_map]
  refine ⟨hassm, hw, ?_⟩
  intro k hk
  rw [hw]
  apply List.mem_filter.mpr
  refine ⟨?_, hk⟩
  cases k <;> simp [RESEARCH_ORDER]

theorem research_batch_fixed_order_witness :
    writtenSections (promiseAllAssemble (agentResults researchOutcomesW).length
      ((indexedFrom 0 (agentResults researchOutcomesW)).reverse)) =
      [.market_tam, .founder_background, .risks_redflags, .product_defensibility,
       .traction_signals] := by
  have h := research_batch_fixed_order researchOutcomesW
    ((indexedFrom 0 (agentResults researchOutcomesW)).reverse) (List.reverse_perm _)
  rw [h.2.1]
  rfl

theorem cancelled_short_circuit_clean_witness :
    (handleResearchBatch [sampleRun] 1 (fun _ => .error "x") =
      { runs := [sampleRun], llmCalls := [], written := [], errored := false }) ∧
    noCanceledRun (applySysEvents [.stage samplePayload 5,
      .batch 0 (fun _ => .ok { summary := "s", citations := [] })] sampleStageSt).runs = true :=
  cancelled_short_circuit_clean [sampleRun] 1 (fun _ => .error "x") rfl
    [.stage samplePayload 5, .batch 0 (fun _ => .ok { summary := "s", citations := [] })]
    sampleStageSt rfl

/-- C9: the calendar webhook's status is 400 exactly when the
channel-id or resource-id header is missing; for every other header
shape and every storage outcome — sync handshake, unknown channel,
resource or token mismatch, duplicate key, or a fault thrown by any
of the three storage touches — it answers 200. -/
theorem gcal_webhook_status (h : GcalPingHeaders) (wl : DbRes (Option GcalWatch))
    (cr : DbRes Bool) (er : DbRes Unit) :
    (gcalWebhookHandler h wl cr er).1 =
      if isMissingHeader h.channelId || isMissingHeader h.resourceId then 400 else 200 := by
  rw [gcalWebhookHandler.eq_def]
  by_cases hm : (isMissingHeader h.channelId || isMissingHeader h.resourceId) = true
  · simp [hm]
  · simp only [Bool.not_eq_true] at hm
    simp only [hm, Bool.false_eq_true, if_false]
    split
    · rfl
    · cases wl with
      | fault => rfl
      | ok ow =>
        cases ow with
        | none => rfl
        | some w =>
          dsimp only
          split
          · rfl
          · split
            · rfl
            · cases cr with
              | fault => rfl
              | ok b =>
                cases b
                · rfl
                · cases er with
                  | fault => rfl
                  | ok u => rfl

end XFund
